import Mathlib

/-!
Verification development for a personal-finance entry-and-reporting tool
(`app.py`): a pydantic-validated transaction model, a JSON-file repository,
and a pandas aggregation pipeline (period filter, investment flattening,
type filter, summary metrics, grouped breakdown).

Amounts are modelled as exact rationals (`ℚ`).  Investment `details`
payloads (`Dict[str, Any]` in the source, holding string or null values)
are modelled as association lists `List (String × Option String)`, where
`none` stands for a null value.  Timestamps are modelled by the year and
month components, the only components the program ever inspects.
-/

/-- A calendar timestamp, reduced to the components the dashboard reads
(`df.timestamp.dt.year` and `.dt.month`). -/
structure Timestamp where
  year : Int
  month : Nat
deriving DecidableEq

/-- Validation outcomes of the pydantic layer: `invalidInput f` models a
pydantic ValidationError on the single field `f`; `allocationMismatch`
models the ValueError raised by `check_allocations_sum`, carrying the
computed total and the expected income amount. -/
inductive Err where
  | invalidInput (field : String) : Err
  | allocationMismatch (total expected : ℚ) : Err
deriving DecidableEq

/-- The four admissible investment types (the `Literal` on `Investment.type`). -/
def invTypes : List String := ["SIP", "Hedge", "Saving", "Emergency Fund"]

/-- The four admissible income types (the `Literal` on `IncomeSource.type`). -/
def incomeTypes : List String := ["salary", "bonus", "teaching", "others"]

/-- The `Investment` model: `type` a string, `amount` a rational, `details` an
arbitrary string-keyed payload (the source declares `details: Dict[str, Any]`
and does not constrain it further). -/
structure Investment where
  type : String
  amount : ℚ
  details : List (String × Option String)
deriving DecidableEq

/-- Validated construction of `Investment`: pydantic checks
`type ∈ Literal["SIP", "Hedge", "Saving", "Emergency Fund"]` and
`amount ≥ 0` (`Field(..., ge=0)`); `details` is accepted as given. -/
def mkInvestment (ty : String) (amount : ℚ)
    (details : List (String × Option String)) : Except Err Investment :=
  if ty ∈ invTypes then
    if 0 ≤ amount then .ok ⟨ty, amount, details⟩
    else .error (.invalidInput "Investment.amount")
  else .error (.invalidInput "Investment.type")

/-- The `Allocations` model: two nonnegative rationals and an ordered list of
investments. -/
structure Allocations where
  life_expenses : ℚ
  self_supply : ℚ
  investments : List Investment
deriving DecidableEq

/-- Validated construction of `Allocations`: pydantic checks
`life_expenses ≥ 0` and `self_supply ≥ 0` (`Field(..., ge=0)`). -/
def mkAllocations (le ss : ℚ) (invs : List Investment) : Except Err Allocations :=
  if 0 ≤ le then
    if 0 ≤ ss then .ok ⟨le, ss, invs⟩
    else .error (.invalidInput "Allocations.self_supply")
  else .error (.invalidInput "Allocations.life_expenses")

/-- The `IncomeSource` model. -/
structure IncomeSource where
  type : String
  amount : ℚ
deriving DecidableEq

/-- Validated construction of `IncomeSource`: pydantic checks
`type ∈ Literal["salary", "bonus", "teaching", "others"]` and `amount > 0`
(`Field(..., gt=0)`). -/
def mkIncomeSource (ty : String) (amount : ℚ) : Except Err IncomeSource :=
  if ty ∈ incomeTypes then
    if 0 < amount then .ok ⟨ty, amount⟩
    else .error (.invalidInput "IncomeSource.amount")
  else .error (.invalidInput "IncomeSource.type")

/-- The `FinanceTransaction` model. -/
structure FinanceTransaction where
  transaction_id : String
  timestamp : Timestamp
  income_source : IncomeSource
  allocations : Allocations
deriving DecidableEq

/-- The cross-field total `life_expenses + self_supply + sum(inv.amount)`
computed by `check_allocations_sum`. -/
def totalAllocated (a : Allocations) : ℚ :=
  a.life_expenses + a.self_supply + (a.investments.map (fun inv => inv.amount)).sum

/-- The `check_allocations_sum` field validator: raises unless
`abs(income_amount - total_allocated) < 0.01`. -/
def check_allocations_sum (income : IncomeSource) (a : Allocations) :
    Except Err Allocations :=
  if |income.amount - totalAllocated a| < 1 / 100 then .ok a
  else .error (.allocationMismatch (totalAllocated a) income.amount)

/-- Raw input for one investment, before pydantic validation. -/
structure InvInput where
  ty : String
  amount : ℚ
  details : List (String × Option String)
deriving DecidableEq

/-- Construct a list of investments in order, aborting at the first
validation failure (the `for inv_state in ...: investment_list.append(
Investment(...))` loop inside an enclosing `try`). -/
def mkInvestments : List InvInput → Except Err (List Investment)
  | [] => .ok []
  | x :: xs =>
    match mkInvestment x.ty x.amount x.details with
    | .error e => .error e
    | .ok inv =>
      match mkInvestments xs with
      | .error e => .error e
      | .ok invs => .ok (inv :: invs)

/-- Validated construction of a `FinanceTransaction` from already-validated
parts: pydantic validates the fields in declaration order, and
`check_allocations_sum` runs on `allocations` with `income_source` already
available in `values.data`. -/
def mkFinanceTransaction (id_ : String) (ts : Timestamp)
    (income : IncomeSource) (a : Allocations) : Except Err FinanceTransaction :=
  match check_allocations_sum income a with
  | .error e => .error e
  | .ok a => .ok ⟨id_, ts, income, a⟩

/-- Construction of a full transaction from raw field values, in the order
the SAVE TRANSACTION handler performs it: build each `Investment`, then the
`IncomeSource`, then `Allocations`, then the `FinanceTransaction` with its
cross-field check.  The first validation failure aborts and no transaction
value is produced. -/
def createTransaction (id_ : String) (ts : Timestamp)
    (incomeTy : String) (incomeAmt : ℚ) (le ss : ℚ)
    (invInputs : List InvInput) : Except Err FinanceTransaction :=
  match mkInvestments invInputs with
  | .error e => .error e
  | .ok invs =>
    match mkIncomeSource incomeTy incomeAmt with
    | .error e => .error e
    | .ok income =>
      match mkAllocations le ss invs with
      | .error e => .error e
      | .ok allocs => mkFinanceTransaction id_ ts income allocs

/-- State of the JSON store file: absent, present but not valid JSON, or
parsing to a list of records.  Serialization (`model_dump(mode='json')` /
`json.load`) is field-faithful per the data format, so stored records are
modelled as the transactions themselves. -/
inductive StoreState where
  | missing : StoreState
  | corrupt : StoreState
  | stored (txs : List FinanceTransaction) : StoreState
deriving DecidableEq

/-- Function `load_data`: returns `[]` when the file does not exist, returns `[]`
when `json.load` raises `JSONDecodeError`, and otherwise returns the parsed
list. -/
def load_data : StoreState → List FinanceTransaction
  | .missing => []
  | .corrupt => []
  | .stored txs => txs

/-- Function `save_data`: rewrites the whole store with the given list. -/
def save_data (data : List FinanceTransaction) : StoreState :=
  .stored data

/-- The persistence step of the SAVE TRANSACTION handler:
`all_data = load_data(DATA_FILE); all_data.append(new_transaction);
save_data(DATA_FILE, all_data)`. -/
def appendAndPersist (s : StoreState) (t : FinanceTransaction) : StoreState :=
  save_data (load_data s ++ [t])

/-- The period filter of the dashboard: the year filter is applied first,
then the month filter, each only when a concrete value is selected
(`none` models "All Time"). -/
def periodFilter (yf : Option Int) (mf : Option Nat)
    (txs : List FinanceTransaction) : List FinanceTransaction :=
  let txs1 :=
    match yf with
    | none => txs
    | some y => txs.filter (fun t => t.timestamp.year == y)
  match mf with
  | none => txs1
  | some m => txs1.filter (fun t => t.timestamp.month == m)

/-- One row of `invest_df_period` / `invest_df_display`: an investment
flattened with its parent transaction id, its `details` keys promoted to
top-level keys prefixed with `detail_`. -/
structure FlatInvestment where
  transaction_id : String
  type : String
  amount : ℚ
  details : List (String × Option String)
deriving DecidableEq

/-- Flatten one transaction into investment rows (the inner loop of the
`temp_invest_list` construction). -/
def flattenTx (t : FinanceTransaction) : List FlatInvestment :=
  t.allocations.investments.map (fun inv =>
    ⟨t.transaction_id, inv.type, inv.amount,
      inv.details.map (fun kv => ("detail_" ++ kv.1, kv.2))⟩)

/-- Function `flattenedInvestments`: all investment rows of the given transactions,
in transaction order then entry order. -/
def flattenedInvestments (txs : List FinanceTransaction) : List FlatInvestment :=
  (txs.map flattenTx).flatten

/-- Cell access on a flattened row, in a frame whose column set contains
the key: `fillna('')` (app.py:206) turns a null value, or the NaN of a row
lacking a key that another row of the frame carries, into the empty
string.  `fillna` cannot create a column no row carries, so this read is
only meaningful under `hasColumn` for the enclosing frame — the grouping
logic guards it accordingly. -/
def detailGet (r : FlatInvestment) (key : String) : String :=
  match r.details.lookup key with
  | some (some v) => v
  | some none => ""
  | none => ""

/-- Whether the data frame built from the given rows has a column for
`key`: `pd.DataFrame(temp_invest_list)` creates a `detail_*` column
exactly when at least one record carries the key (even with a null
value).  Row-filtering (`invest_df_display`) keeps the column set of the
period frame. -/
def hasColumn (rs : List FlatInvestment) (key : String) : Bool :=
  rs.any (fun r => (r.details.lookup key).isSome)

/-- The investment-type filter (`none` models "All Investment Types"). -/
def typeFilter (tf : Option String) (rs : List FlatInvestment) :
    List FlatInvestment :=
  match tf with
  | none => rs
  | some ty => rs.filter (fun r => r.type == ty)

/-- Pandas `groupby(key)['amount'].sum()` on flattened rows: one entry per
distinct key, holding the sum of `amount` over the rows with that key. -/
def groupBreakdown (key : FlatInvestment → String) (rs : List FlatInvestment) :
    List (String × ℚ) :=
  ((rs.map key).dedup).map (fun k =>
    (k, ((rs.filter (fun r => key r == k)).map (fun r => r.amount)).sum))

/-- The Investment Portfolio Breakdown chart logic (app.py:259-287) over
the period frame `periodRs` (whose columns the display frame keeps) and
the type-filtered display rows `displayRs`.  `none` models every path that
produces no breakdown: an empty display frame (the `else: st.info` branch),
a grouping column absent from the period frame — `groupby` then raises
KeyError at app.py:268/272/276, since `fillna('')` cannot create a missing
column — and a selected type outside the `if`/`elif` chain, which leaves
`invest_summary` unbound (NameError).  The "All Investment Types" branch
groups by `type`, a column the flattening always populates. -/
def groupBreakdownFor (tf : Option String) (periodRs displayRs : List FlatInvestment) :
    Option (List (String × ℚ)) :=
  if displayRs.isEmpty then none
  else
    match tf with
    | none => some (groupBreakdown (fun r => r.type) displayRs)
    | some "SIP" =>
        if hasColumn periodRs "detail_fund_name" then
          some (groupBreakdown (fun r => detailGet r "detail_fund_name") displayRs)
        else none
    | some "Hedge" =>
        if hasColumn periodRs "detail_asset_type" then
          some (groupBreakdown (fun r => detailGet r "detail_asset_type") displayRs)
        else none
    | some "Saving" =>
        if hasColumn periodRs "detail_destination_account" then
          some (groupBreakdown (fun r => detailGet r "detail_destination_account") displayRs)
        else none
    | some "Emergency Fund" =>
        if hasColumn periodRs "detail_destination_account" then
          some (groupBreakdown (fun r => detailGet r "detail_destination_account") displayRs)
        else none
    | some _ => none

/-- The detail column the breakdown chain groups by for each type filter:
none for "All Investment Types" (which groups by the always-present `type`
column) and for selections outside the chain. -/
def detailColFor (tf : Option String) : Option String :=
  match tf with
  | some "SIP" => some "detail_fund_name"
  | some "Hedge" => some "detail_asset_type"
  | some "Saving" => some "detail_destination_account"
  | some "Emergency Fund" => some "detail_destination_account"
  | _ => none

/-- The outputs of one dashboard render for given filters. -/
structure DashboardOutput where
  totalIncome : ℚ
  totalLifeExpenses : ℚ
  totalSelfSupply : ℚ
  totalInvested : ℚ
  investmentRate : Option ℚ
  breakdown : Option (List (String × ℚ))
deriving DecidableEq

/-- One dashboard render: period filter, flatten, type filter, summary
metrics over the period-filtered data (`df_selection` and
`invest_df_period`, not the type-filtered `invest_df_display`), the
investment rate only when `total_income > 0`, and the grouped breakdown
over the type-filtered rows. -/
def dashboard (txs : List FinanceTransaction) (yf : Option Int)
    (mf : Option Nat) (tf : Option String) : DashboardOutput :=
  let df_selection := periodFilter yf mf txs
  let invest_df_period := flattenedInvestments df_selection
  let invest_df_display := typeFilter tf invest_df_period
  let total_income := (df_selection.map (fun t => t.income_source.amount)).sum
  let total_life_expenses :=
    (df_selection.map (fun t => t.allocations.life_expenses)).sum
  let total_self_supply :=
    (df_selection.map (fun t => t.allocations.self_supply)).sum
  let total_invested_period := (invest_df_period.map (fun r => r.amount)).sum
  let rate :=
    if 0 < total_income then some (total_invested_period / total_income * 100)
    else none
  ⟨total_income, total_life_expenses, total_self_supply,
    total_invested_period, rate,
    groupBreakdownFor tf invest_df_period invest_df_display⟩

/-- One investment row of the entry form (`st.session_state.investments`):
a loose field bag; detail fields are `none` when the key was never set. -/
structure FormRow where
  ty : String
  amount : ℚ
  fund_name : Option String
  platform : Option String
  asset_type : Option String
  description : Option String
  destination_account : Option String
deriving DecidableEq

/-- The `details_dict` built by the SAVE TRANSACTION handler for one row:
the key set is chosen by the row's current type. -/
def detailsFor (row : FormRow) : List (String × Option String) :=
  if row.ty = "SIP" then
    [("fund_name", row.fund_name), ("platform", row.platform)]
  else if row.ty = "Hedge" then
    [("asset_type", row.asset_type), ("description", row.description)]
  else if row.ty = "Saving" ∨ row.ty = "Emergency Fund" then
    [("destination_account", row.destination_account)]
  else []

/-- The `investment_list` construction of the SAVE TRANSACTION handler:
rows are processed in order, a row is used only when its amount is
strictly positive, and each used row is validated as an `Investment`. -/
def buildInvestmentList : List FormRow → Except Err (List Investment)
  | [] => .ok []
  | row :: rest =>
    if 0 < row.amount then
      match mkInvestment row.ty row.amount (detailsFor row) with
      | .error e => .error e
      | .ok inv =>
        match buildInvestmentList rest with
        | .error e => .error e
        | .ok invs => .ok (inv :: invs)
    else buildInvestmentList rest

/-- Modelled from the spec: the InvestmentDetail variant the specification
requires for each investment type (SIP carries a fund name and platform;
Hedge carries an asset type drawn from Gold, USD, Other, and a description;
Saving and Emergency Fund carry a destination account).  The source class
`Investment` has no such check; this definition exists to compare the
spec's requirement with the code. -/
def detailsMatchSpec (ty : String)
    (d : List (String × Option String)) : Bool :=
  match ty with
  | "SIP" => (d.lookup "fund_name").isSome && (d.lookup "platform").isSome
  | "Hedge" =>
      (match d.lookup "asset_type" with
       | some (some v) => decide (v ∈ (["Gold", "USD", "Other"] : List String))
       | _ => false) && (d.lookup "description").isSome
  | "Saving" => (d.lookup "destination_account").isSome
  | "Emergency Fund" => (d.lookup "destination_account").isSome
  | _ => false

/-- Modelled from the spec: the grouping key the specification prescribes
for each active type filter. -/
def specKeyFor (tf : Option String) : FlatInvestment → String :=
  match tf with
  | none => fun r => r.type
  | some "SIP" => fun r => detailGet r "detail_fund_name"
  | some "Hedge" => fun r => detailGet r "detail_asset_type"
  | _ => fun r => detailGet r "detail_destination_account"

theorem mkIncomeSource_eq_ok (ty : String) (a : ℚ)
    (h1 : ty ∈ incomeTypes) (h2 : 0 < a) :
    mkIncomeSource ty a = .ok ⟨ty, a⟩ := by
  unfold mkIncomeSource
  rw [if_pos h1, if_pos h2]

theorem mkIncomeSource_ok_iff (ty : String) (a : ℚ) :
    (∃ v, mkIncomeSource ty a = .ok v) ↔ ty ∈ incomeTypes ∧ 0 < a := by
  unfold mkIncomeSource
  split_ifs with h1 h2
  · simp [h1, h2]
  · simp [h1, h2]
  · simp [h1]

theorem mkIncomeSource_err (ty : String) (a : ℚ)
    (h : ¬(ty ∈ incomeTypes ∧ 0 < a)) :
    ∃ f, mkIncomeSource ty a = .error (.invalidInput f) := by
  unfold mkIncomeSource
  split_ifs with h1 h2
  · exact absurd ⟨h1, h2⟩ h
  · exact ⟨_, rfl⟩
  · exact ⟨_, rfl⟩

theorem mkInvestment_eq_ok (ty : String) (a : ℚ)
    (d : List (String × Option String)) (h1 : ty ∈ invTypes) (h2 : 0 ≤ a) :
    mkInvestment ty a d = .ok ⟨ty, a, d⟩ := by
  unfold mkInvestment
  rw [if_pos h1, if_pos h2]

theorem mkInvestment_ok_iff (ty : String) (a : ℚ)
    (d : List (String × Option String)) :
    (∃ v, mkInvestment ty a d = .ok v) ↔ ty ∈ invTypes ∧ 0 ≤ a := by
  unfold mkInvestment
  split_ifs with h1 h2
  · simp [h1, h2]
  · simp [h1, h2]
  · simp [h1]

theorem mkInvestment_err (ty : String) (a : ℚ)
    (d : List (String × Option String)) (h : ¬(ty ∈ invTypes ∧ 0 ≤ a)) :
    ∃ f, mkInvestment ty a d = .error (.invalidInput f) := by
  unfold mkInvestment
  split_ifs with h1 h2
  · exact absurd ⟨h1, h2⟩ h
  · exact ⟨_, rfl⟩
  · exact ⟨_, rfl⟩

theorem mkAllocations_eq_ok (le ss : ℚ) (invs : List Investment)
    (h1 : 0 ≤ le) (h2 : 0 ≤ ss) :
    mkAllocations le ss invs = .ok ⟨le, ss, invs⟩ := by
  unfold mkAllocations
  rw [if_pos h1, if_pos h2]

theorem mkAllocations_ok_iff (le ss : ℚ) (invs : List Investment) :
    (∃ v, mkAllocations le ss invs = .ok v) ↔ 0 ≤ le ∧ 0 ≤ ss := by
  unfold mkAllocations
  split_ifs with h1 h2
  · simp [h1, h2]
  · simp [h1, h2]
  · simp [h1]

theorem mkAllocations_err (le ss : ℚ) (invs : List Investment)
    (h : ¬(0 ≤ le ∧ 0 ≤ ss)) :
    ∃ f, mkAllocations le ss invs = .error (.invalidInput f) := by
  unfold mkAllocations
  split_ifs with h1 h2
  · exact absurd ⟨h1, h2⟩ h
  · exact ⟨_, rfl⟩
  · exact ⟨_, rfl⟩

theorem mkInvestments_eq_ok (l : List InvInput)
    (h : ∀ x ∈ l, x.ty ∈ invTypes ∧ 0 ≤ x.amount) :
    mkInvestments l =
      .ok (l.map (fun x => (⟨x.ty, x.amount, x.details⟩ : Investment))) := by
  induction l with
  | nil => rfl
  | cons x xs ih =>
    have hx := h x (List.mem_cons_self x xs)
    have hxs : ∀ y ∈ xs, y.ty ∈ invTypes ∧ 0 ≤ y.amount :=
      fun y hy => h y (List.mem_cons_of_mem x hy)
    unfold mkInvestments
    rw [mkInvestment_eq_ok x.ty x.amount x.details hx.1 hx.2, ih hxs]
    rfl

theorem mkInvestments_ok_forall (l : List InvInput) (invs : List Investment)
    (h : mkInvestments l = .ok invs) :
    ∀ x ∈ l, x.ty ∈ invTypes ∧ 0 ≤ x.amount := by
  induction l generalizing invs with
  | nil => simp
  | cons x xs ih =>
    intro y hy
    unfold mkInvestments at h
    cases hmk : mkInvestment x.ty x.amount x.details with
    | error e => rw [hmk] at h; cases h
    | ok inv =>
      rw [hmk] at h
      cases hrest : mkInvestments xs with
      | error e => rw [hrest] at h; cases h
      | ok invs2 =>
        have hx : x.ty ∈ invTypes ∧ 0 ≤ x.amount :=
          (mkInvestment_ok_iff x.ty x.amount x.details).mp ⟨inv, hmk⟩
        rcases List.mem_cons.mp hy with rfl | hy2
        · exact hx
        · exact ih invs2 hrest y hy2

theorem check_allocations_sum_ok (income : IncomeSource) (a : Allocations)
    (h : |income.amount - totalAllocated a| < 1 / 100) :
    check_allocations_sum income a = .ok a := by
  unfold check_allocations_sum
  rw [if_pos h]

theorem check_allocations_sum_err (income : IncomeSource) (a : Allocations)
    (h : ¬|income.amount - totalAllocated a| < 1 / 100) :
    check_allocations_sum income a =
      .error (.allocationMismatch (totalAllocated a) income.amount) := by
  unfold check_allocations_sum
  rw [if_neg h]

theorem createTransaction_reduces (id_ : String) (ts : Timestamp)
    (incomeTy : String) (incomeAmt le ss : ℚ) (invInputs : List InvInput)
    (h1 : incomeTy ∈ incomeTypes) (h2 : 0 < incomeAmt)
    (h3 : 0 ≤ le) (h4 : 0 ≤ ss)
    (h5 : ∀ x ∈ invInputs, x.ty ∈ invTypes ∧ 0 ≤ x.amount) :
    createTransaction id_ ts incomeTy incomeAmt le ss invInputs =
      mkFinanceTransaction id_ ts ⟨incomeTy, incomeAmt⟩
        ⟨le, ss, invInputs.map (fun x => (⟨x.ty, x.amount, x.details⟩ : Investment))⟩ := by
  unfold createTransaction
  rw [mkInvestments_eq_ok invInputs h5]
  rw [mkIncomeSource_eq_ok incomeTy incomeAmt h1 h2]
  show (match mkAllocations le ss
      (invInputs.map (fun x => (⟨x.ty, x.amount, x.details⟩ : Investment))) with
    | Except.error e => Except.error e
    | Except.ok allocs =>
        mkFinanceTransaction id_ ts ⟨incomeTy, incomeAmt⟩ allocs) = _
  rw [mkAllocations_eq_ok le ss _ h3 h4]

theorem totalAllocated_of_inputs (le ss : ℚ) (invInputs : List InvInput) :
    totalAllocated
        ⟨le, ss, invInputs.map (fun x => (⟨x.ty, x.amount, x.details⟩ : Investment))⟩ =
      le + ss + (invInputs.map InvInput.amount).sum := by
  unfold totalAllocated
  simp only [List.map_map]
  rfl

/-- C1: when every individual field is valid, transaction construction
succeeds exactly when the allocation total is within 0.01 of the income
amount; otherwise it fails with the mismatch error carrying the computed
total and the expected income amount, and no transaction is produced. -/
theorem createTransaction_allocation_gate (id_ : String) (ts : Timestamp)
    (incomeTy : String) (incomeAmt le ss : ℚ) (invInputs : List InvInput)
    (h1 : incomeTy ∈ incomeTypes) (h2 : 0 < incomeAmt)
    (h3 : 0 ≤ le) (h4 : 0 ≤ ss)
    (h5 : ∀ x ∈ invInputs, x.ty ∈ invTypes ∧ 0 ≤ x.amount) :
    (|incomeAmt - (le + ss + (invInputs.map InvInput.amount).sum)| < 1 / 100 →
      createTransaction id_ ts incomeTy incomeAmt le ss invInputs =
        .ok ⟨id_, ts, ⟨incomeTy, incomeAmt⟩,
          ⟨le, ss, invInputs.map (fun x => ⟨x.ty, x.amount, x.details⟩)⟩⟩) ∧
    (¬|incomeAmt - (le + ss + (invInputs.map InvInput.amount).sum)| < 1 / 100 →
      createTransaction id_ ts incomeTy incomeAmt le ss invInputs =
        .error (.allocationMismatch
          (le + ss + (invInputs.map InvInput.amount).sum) incomeAmt)) := by
  have hred := createTransaction_reduces id_ ts incomeTy incomeAmt le ss invInputs
    h1 h2 h3 h4 h5
  have htot := totalAllocated_of_inputs le ss invInputs
  constructor
  · intro hlt
    have hc : |(⟨incomeTy, incomeAmt⟩ : IncomeSource).amount -
        totalAllocated ⟨le, ss,
          invInputs.map (fun x => (⟨x.ty, x.amount, x.details⟩ : Investment))⟩| <
        1 / 100 := by
      rw [htot]
      exact hlt
    rw [hred]
    unfold mkFinanceTransaction
    rw [check_allocations_sum_ok _ _ hc]
  · intro hge
    have hc : ¬|(⟨incomeTy, incomeAmt⟩ : IncomeSource).amount -
        totalAllocated ⟨le, ss,
          invInputs.map (fun x => (⟨x.ty, x.amount, x.details⟩ : Investment))⟩| <
        1 / 100 := by
      rw [htot]
      exact hge
    rw [hred]
    unfold mkFinanceTransaction
    rw [check_allocations_sum_err _ _ hc]
    rw [htot]

theorem mismatch_example_fact :
    ¬|(10 : ℚ) - (10 + 10 + (List.map InvInput.amount []).sum)| < 1 / 100 := by
  simp only [List.map_nil, List.sum_nil, add_zero]
  norm_num

theorem createTransaction_allocation_gate_witness :
    createTransaction "t1" ⟨2024, 1⟩ "salary" 10 10 0 [] =
      .ok ⟨"t1", ⟨2024, 1⟩, ⟨"salary", 10⟩, ⟨10, 0, []⟩⟩ ∧
    createTransaction "t2" ⟨2024, 1⟩ "salary" 10 10 10 [] =
      .error (.allocationMismatch
        (10 + 10 + (List.map InvInput.amount []).sum) 10) :=
  ⟨(createTransaction_allocation_gate "t1" ⟨2024, 1⟩ "salary" 10 10 0 []
      (by decide) (by decide) (by decide) (by decide) (by simp)).1 (by simp),
   (createTransaction_allocation_gate "t2" ⟨2024, 1⟩ "salary" 10 10 10 []
      (by decide) (by decide) (by decide) (by decide) (by simp)).2
    mismatch_example_fact⟩

/-- C2 counterexample: an `Investment` whose `details` payload does not
match the variant the specification requires for its type is nevertheless
constructed successfully — `details` is accepted unvalidated.  A SIP
investment with an empty payload lacks both `fund_name` and `platform`,
yet construction yields it unchanged. -/
theorem investment_details_unvalidated_cex :
    detailsMatchSpec "SIP" [] = false ∧
    mkInvestment "SIP" 100 [] = .ok ⟨"SIP", 100, []⟩ :=
  ⟨rfl, mkInvestment_eq_ok "SIP" 100 [] (by decide) (by decide)⟩

/-- C2 amended: constructing an `Investment` whose `type` is outside the
four-member enumeration fails with InvalidInput, and a negative amount
fails with InvalidInput; the `details` payload is stored as given, with no
structural validation against the variant for `type`. -/
theorem investment_construction_amended (ty : String) (a : ℚ)
    (d : List (String × Option String)) :
    (ty ∉ invTypes →
      mkInvestment ty a d = .error (.invalidInput "Investment.type")) ∧
    (¬0 ≤ a →
      mkInvestment ty a d ≠ .ok ⟨ty, a, d⟩) ∧
    (ty ∈ invTypes → 0 ≤ a → mkInvestment ty a d = .ok ⟨ty, a, d⟩) := by
  refine ⟨fun h => ?_, fun h => ?_, fun h1 h2 => mkInvestment_eq_ok ty a d h1 h2⟩
  · unfold mkInvestment
    rw [if_neg h]
  · intro hok
    rcases mkInvestment_err ty a d (fun hc => h hc.2) with ⟨f, hf⟩
    rw [hf] at hok
    cases hok

theorem investment_construction_amended_witness :
    mkInvestment "Bond" 1 [] = .error (.invalidInput "Investment.type") ∧
    mkInvestment "Hedge" 7 [("asset_type", some "Gold"), ("description", some "bar")] =
      .ok ⟨"Hedge", 7, [("asset_type", some "Gold"), ("description", some "bar")]⟩ :=
  ⟨(investment_construction_amended "Bond" 1 []).1 (by decide),
   (investment_construction_amended "Hedge" 7
      [("asset_type", some "Gold"), ("description", some "bar")]).2.2
    (by decide) (by decide)⟩

/-- C8: field-level validation at construction — an income source needs a
known type and a strictly positive amount, allocations need nonnegative
life expenses and self supply, an investment needs a known type and a
nonnegative amount; each violation yields an InvalidInput error, and a
full transaction is only ever produced from inputs passing every
single-field constraint. -/
theorem field_validation_characterization (ity : String) (ia : ℚ)
    (vty : String) (va : ℚ) (d : List (String × Option String))
    (le ss : ℚ) (invs : List Investment)
    (id_ : String) (ts : Timestamp) (inps : List InvInput) :
    ((∃ v, mkIncomeSource ity ia = .ok v) ↔ ity ∈ incomeTypes ∧ 0 < ia) ∧
    (¬(ity ∈ incomeTypes ∧ 0 < ia) →
      ∃ f, mkIncomeSource ity ia = .error (.invalidInput f)) ∧
    ((∃ v, mkInvestment vty va d = .ok v) ↔ vty ∈ invTypes ∧ 0 ≤ va) ∧
    (¬(vty ∈ invTypes ∧ 0 ≤ va) →
      ∃ f, mkInvestment vty va d = .error (.invalidInput f)) ∧
    ((∃ v, mkAllocations le ss invs = .ok v) ↔ 0 ≤ le ∧ 0 ≤ ss) ∧
    (¬(0 ≤ le ∧ 0 ≤ ss) →
      ∃ f, mkAllocations le ss invs = .error (.invalidInput f)) ∧
    ((∃ tx, createTransaction id_ ts ity ia le ss inps = .ok tx) →
      ity ∈ incomeTypes ∧ 0 < ia ∧ 0 ≤ le ∧ 0 ≤ ss ∧
        ∀ x ∈ inps, x.ty ∈ invTypes ∧ 0 ≤ x.amount) := by
  refine ⟨mkIncomeSource_ok_iff ity ia, mkIncomeSource_err ity ia,
    mkInvestment_ok_iff vty va d, mkInvestment_err vty va d,
    mkAllocations_ok_iff le ss invs, mkAllocations_err le ss invs, ?_⟩
  rintro ⟨tx, htx⟩
  unfold createTransaction at htx
  cases hinv : mkInvestments inps with
  | error e => simp [hinv] at htx
  | ok invs2 =>
    simp only [hinv] at htx
    cases hincome : mkIncomeSource ity ia with
    | error e => simp [hincome] at htx
    | ok inc =>
      simp only [hincome] at htx
      cases hall : mkAllocations le ss invs2 with
      | error e => simp [hall] at htx
      | ok al =>
        have hi := (mkIncomeSource_ok_iff ity ia).mp ⟨inc, hincome⟩
        have ha := (mkAllocations_ok_iff le ss invs2).mp ⟨al, hall⟩
        exact ⟨hi.1, hi.2, ha.1, ha.2, mkInvestments_ok_forall inps invs2 hinv⟩

theorem field_validation_characterization_witness :
    (∃ f, mkIncomeSource "salary" (-1) = .error (.invalidInput f)) ∧
    (∃ f, mkInvestment "Bond" 5 [] = .error (.invalidInput f)) ∧
    (∃ f, mkAllocations (-2) 0 [] = .error (.invalidInput f)) :=
  ⟨(field_validation_characterization "salary" (-1) "x" 0 [] 0 0 [] "t"
      ⟨2024, 1⟩ []).2.1 (by decide),
   (field_validation_characterization "x" 1 "Bond" 5 [] 0 0 [] "t"
      ⟨2024, 1⟩ []).2.2.2.1 (by decide),
   (field_validation_characterization "x" 1 "x" 0 [] (-2) 0 [] "t"
      ⟨2024, 1⟩ []).2.2.2.2.2.1 (by decide)⟩

theorem buildInvestmentList_eq (rows : List FormRow)
    (h : ∀ r ∈ rows, r.ty ∈ invTypes ∧ 0 ≤ r.amount) :
    buildInvestmentList rows =
      .ok ((rows.filter (fun r => decide (0 < r.amount))).map
        (fun r => (⟨r.ty, r.amount, detailsFor r⟩ : Investment))) := by
  induction rows with
  | nil => rfl
  | cons r rest ih =>
    have hr := h r (List.mem_cons_self r rest)
    have hrest : ∀ y ∈ rest, y.ty ∈ invTypes ∧ 0 ≤ y.amount :=
      fun y hy => h y (List.mem_cons_of_mem r hy)
    unfold buildInvestmentList
    by_cases hpos : 0 < r.amount
    · rw [if_pos hpos,
        mkInvestment_eq_ok r.ty r.amount (detailsFor r) hr.1 hr.2, ih hrest]
      simp [List.filter_cons, hpos]
    · rw [if_neg hpos, ih hrest]
      simp [List.filter_cons, hpos]

theorem filter_pos_sum_eq (rows : List FormRow)
    (h : ∀ r ∈ rows, 0 ≤ r.amount) :
    ((rows.filter (fun r => decide (0 < r.amount))).map
        (fun r => r.amount)).sum =
      (rows.map (fun r => r.amount)).sum := by
  induction rows with
  | nil => rfl
  | cons r rest ih =>
    have hr := h r (List.mem_cons_self r rest)
    have hrest : ∀ y ∈ rest, 0 ≤ y.amount :=
      fun y hy => h y (List.mem_cons_of_mem r hy)
    by_cases hpos : 0 < r.amount
    · simp [List.filter_cons, hpos, ih hrest]
    · have hz : r.amount = 0 := le_antisymm (not_lt.mp hpos) hr
      simp [List.filter_cons, hpos, ih hrest, hz]

/-- C10: the SAVE TRANSACTION handler includes a form row in the
constructed investment list exactly when its amount is strictly positive;
rows with amount 0 are dropped, every investment in the produced list has
a strictly positive amount, and — the dropped rows contributing 0 — the
filtering leaves the total investment amount, and hence the allocation-sum
check's outcome, unchanged. -/
theorem save_path_positive_rows (rows : List FormRow)
    (h : ∀ r ∈ rows, r.ty ∈ invTypes ∧ 0 ≤ r.amount) :
    buildInvestmentList rows =
      .ok ((rows.filter (fun r => decide (0 < r.amount))).map
        (fun r => (⟨r.ty, r.amount, detailsFor r⟩ : Investment))) ∧
    ((rows.filter (fun r => decide (0 < r.amount))).map
        (fun r => r.amount)).sum = (rows.map (fun r => r.amount)).sum ∧
    ∀ invs, buildInvestmentList rows = .ok invs → ∀ i ∈ invs, 0 < i.amount := by
  refine ⟨buildInvestmentList_eq rows h,
    filter_pos_sum_eq rows (fun r hr => (h r hr).2), ?_⟩
  intro invs hinvs i hi
  rw [buildInvestmentList_eq rows h] at hinvs
  cases hinvs
  rcases List.mem_map.mp hi with ⟨r, hrf, rfl⟩
  have := (List.mem_filter.mp hrf).2
  exact of_decide_eq_true this

theorem save_path_positive_rows_witness :
    buildInvestmentList
        [⟨"SIP", 5, some "F", some "P", none, none, none⟩,
         ⟨"Hedge", 0, none, none, some "Gold", some "", none⟩] =
      .ok [⟨"SIP", 5, [("fund_name", some "F"), ("platform", some "P")]⟩] ∧
    (([(⟨"SIP", 5, some "F", some "P", none, none, none⟩ : FormRow),
       ⟨"Hedge", 0, none, none, some "Gold", some "", none⟩].filter
        (fun r => decide (0 < r.amount))).map (fun r => r.amount)).sum =
      ([(⟨"SIP", 5, some "F", some "P", none, none, none⟩ : FormRow),
        ⟨"Hedge", 0, none, none, some "Gold", some "", none⟩].map
          (fun r => r.amount)).sum ∧
    ∀ invs, buildInvestmentList
        [⟨"SIP", 5, some "F", some "P", none, none, none⟩,
         ⟨"Hedge", 0, none, none, some "Gold", some "", none⟩] = .ok invs →
      ∀ i ∈ invs, 0 < i.amount :=
  save_path_positive_rows
    [⟨"SIP", 5, some "F", some "P", none, none, none⟩,
     ⟨"Hedge", 0, none, none, some "Gold", some "", none⟩] (by decide)

/-- C6: loading from a nonexistent store or from a store whose contents do
not parse returns the empty list — corruption is swallowed, and the result
is always a plain list, never an error. -/
theorem load_data_lenient :
    load_data .missing = [] ∧ load_data .corrupt = [] ∧
    ∀ txs, load_data (.stored txs) = txs :=
  ⟨rfl, rfl, fun _ => rfl⟩

/-- C7: round-trip — after appending a transaction and persisting, a
subsequent load returns exactly the previously stored sequence, in order,
with the new transaction (all its fields unchanged) at the end; in
particular the new transaction is contained in the loaded sequence. -/
theorem append_persist_roundtrip (s : StoreState) (t : FinanceTransaction) :
    load_data (appendAndPersist s t) = load_data s ++ [t] ∧
    t ∈ load_data (appendAndPersist s t) := by
  constructor
  · rfl
  · show t ∈ load_data s ++ [t]
    exact List.mem_append_right _ (List.mem_singleton.mpr rfl)

/-- C5: the period filter yields exactly the subsequence of the input whose
timestamp year matches the selected year (no constraint when the year
filter is "All Time") and whose timestamp month matches the selected month
(no constraint when the month filter is "All Time"); the two axes are
independent. -/
theorem periodFilter_characterization (yf : Option Int) (mf : Option Nat)
    (txs : List FinanceTransaction) :
    List.Sublist (periodFilter yf mf txs) txs ∧
    ∀ t, t ∈ periodFilter yf mf txs ↔
      t ∈ txs ∧ (∀ y, yf = some y → t.timestamp.year = y) ∧
        (∀ m, mf = some m → t.timestamp.month = m) := by
  unfold periodFilter
  cases yf with
  | none =>
    cases mf with
    | none =>
      refine ⟨List.Sublist.refl txs, fun t => ?_⟩
      simp
    | some m =>
      refine ⟨List.filter_sublist txs, fun t => ?_⟩
      simp [List.mem_filter]
  | some y =>
    cases mf with
    | none =>
      refine ⟨List.filter_sublist txs, fun t => ?_⟩
      simp [List.mem_filter]
    | some m =>
      refine ⟨(List.filter_sublist _).trans (List.filter_sublist txs), fun t => ?_⟩
      simp [List.mem_filter]
      tauto

theorem flattened_amount_sum (txs : List FinanceTransaction) :
    ((flattenedInvestments txs).map (fun r => r.amount)).sum =
      (txs.map
        (fun t => (t.allocations.investments.map (fun i => i.amount)).sum)).sum := by
  induction txs with
  | nil => rfl
  | cons t ts ih =>
    show ((flattenTx t ++ (ts.map flattenTx).flatten).map
        (fun r => r.amount)).sum = _
    rw [List.map_append, List.sum_append]
    unfold flattenedInvestments at ih
    rw [ih]
    have hhead : ((flattenTx t).map (fun r => r.amount)).sum =
        (t.allocations.investments.map (fun i => i.amount)).sum := by
      unfold flattenTx
      rw [List.map_map]
      rfl
    rw [hhead]
    simp

theorem dashboard_rate_eq (txs : List FinanceTransaction) (yf : Option Int)
    (mf : Option Nat) (tf : Option String) :
    (dashboard txs yf mf tf).investmentRate =
      if 0 < (dashboard txs yf mf tf).totalIncome
      then some ((dashboard txs yf mf tf).totalInvested /
        (dashboard txs yf mf tf).totalIncome * 100)
      else none := rfl

/-- C3: every summary metric of a dashboard render is a sum over the
period-filtered transactions only — total income, life expenses and self
supply are sums of the respective fields, total invested is the sum of
amounts over the flattened investments of the period (equivalently, of
each period transaction's investment amounts) — none of them changes with
the investment-type filter, and the investment rate is
totalInvested / totalIncome * 100 exactly when total income is positive
and absent otherwise. -/
theorem dashboard_summary_metrics (txs : List FinanceTransaction)
    (yf : Option Int) (mf : Option Nat) (tf tf2 : Option String) :
    (dashboard txs yf mf tf).totalIncome =
      ((periodFilter yf mf txs).map (fun t => t.income_source.amount)).sum ∧
    (dashboard txs yf mf tf).totalLifeExpenses =
      ((periodFilter yf mf txs).map
        (fun t => t.allocations.life_expenses)).sum ∧
    (dashboard txs yf mf tf).totalSelfSupply =
      ((periodFilter yf mf txs).map (fun t => t.allocations.self_supply)).sum ∧
    (dashboard txs yf mf tf).totalInvested =
      ((flattenedInvestments (periodFilter yf mf txs)).map
        (fun r => r.amount)).sum ∧
    (dashboard txs yf mf tf).totalInvested =
      ((periodFilter yf mf txs).map
        (fun t => (t.allocations.investments.map (fun i => i.amount)).sum)).sum ∧
    (dashboard txs yf mf tf).totalIncome =
      (dashboard txs yf mf tf2).totalIncome ∧
    (dashboard txs yf mf tf).totalLifeExpenses =
      (dashboard txs yf mf tf2).totalLifeExpenses ∧
    (dashboard txs yf mf tf).totalSelfSupply =
      (dashboard txs yf mf tf2).totalSelfSupply ∧
    (dashboard txs yf mf tf).totalInvested =
      (dashboard txs yf mf tf2).totalInvested ∧
    (0 < (dashboard txs yf mf tf).totalIncome →
      (dashboard txs yf mf tf).investmentRate =
        some ((dashboard txs yf mf tf).totalInvested /
          (dashboard txs yf mf tf).totalIncome * 100)) ∧
    (¬0 < (dashboard txs yf mf tf).totalIncome →
      (dashboard txs yf mf tf).investmentRate = none) := by
  refine ⟨rfl, rfl, rfl, rfl, flattened_amount_sum (periodFilter yf mf txs),
    rfl, rfl, rfl, rfl, fun h => ?_, fun h => ?_⟩
  · rw [dashboard_rate_eq txs yf mf tf, if_pos h]
  · rw [dashboard_rate_eq txs yf mf tf, if_neg h]

theorem example_dashboard_income_pos :
    0 < (dashboard [⟨"t1", ⟨2024, 1⟩, ⟨"salary", 10⟩, ⟨4, 6, []⟩⟩]
      none none none).totalIncome := by
  show (0 : ℚ) < ([(10 : ℚ)]).sum
  norm_num

theorem dashboard_summary_metrics_witness :
    (dashboard [⟨"t1", ⟨2024, 1⟩, ⟨"salary", 10⟩, ⟨4, 6, []⟩⟩]
        none none none).investmentRate =
      some ((dashboard [⟨"t1", ⟨2024, 1⟩, ⟨"salary", 10⟩, ⟨4, 6, []⟩⟩]
          none none none).totalInvested /
        (dashboard [⟨"t1", ⟨2024, 1⟩, ⟨"salary", 10⟩, ⟨4, 6, []⟩⟩]
          none none none).totalIncome * 100) :=
  (dashboard_summary_metrics [⟨"t1", ⟨2024, 1⟩, ⟨"salary", 10⟩, ⟨4, 6, []⟩⟩]
    none none none (some "SIP")).2.2.2.2.2.2.2.2.2.1 example_dashboard_income_pos

theorem groupBreakdown_keys (key : FlatInvestment → String)
    (rs : List FlatInvestment) :
    (groupBreakdown key rs).map Prod.fst = (rs.map key).dedup := by
  unfold groupBreakdown
  rw [List.map_map]
  exact List.map_id _

theorem groupBreakdown_nodup_keys (key : FlatInvestment → String)
    (rs : List FlatInvestment) :
    ((groupBreakdown key rs).map Prod.fst).Nodup := by
  rw [groupBreakdown_keys]
  exact List.nodup_dedup _

theorem groupBreakdown_mem (key : FlatInvestment → String)
    (rs : List FlatInvestment) (p : String × ℚ)
    (hp : p ∈ groupBreakdown key rs) :
    p.2 = ((rs.filter (fun r => key r == p.1)).map (fun r => r.amount)).sum := by
  unfold groupBreakdown at hp
  rcases List.mem_map.mp hp with ⟨k, hk, rfl⟩
  rfl

theorem groupBreakdown_complete (key : FlatInvestment → String)
    (rs : List FlatInvestment) (k : String) (hk : k ∈ rs.map key) :
    k ∈ (groupBreakdown key rs).map Prod.fst := by
  rw [groupBreakdown_keys]
  exact List.mem_dedup.mpr hk

theorem sum_ite_eq_zero_of_not_mem (k0 : String) (c : ℚ) (ks : List String)
    (h : k0 ∉ ks) :
    (ks.map (fun k => if k0 = k then c else 0)).sum = 0 := by
  induction ks with
  | nil => rfl
  | cons k ks ih =>
    have h1 : k0 ≠ k := fun e => h (e ▸ List.mem_cons_self k ks)
    have h2 : k0 ∉ ks := fun m => h (List.mem_cons_of_mem k m)
    simp [h1, ih h2]

theorem sum_ite_eq_of_nodup (k0 : String) (c : ℚ) (ks : List String)
    (hnd : ks.Nodup) (hk : k0 ∈ ks) :
    (ks.map (fun k => if k0 = k then c else 0)).sum = c := by
  induction ks with
  | nil => cases hk
  | cons k ks ih =>
    rcases List.mem_cons.mp hk with rfl | hmem
    · have hnot : k0 ∉ ks := (List.nodup_cons.mp hnd).1
      simp [sum_ite_eq_zero_of_not_mem k0 c ks hnot]
    · have hne : k0 ≠ k := by
        rintro rfl
        exact (List.nodup_cons.mp hnd).1 hmem
      simp [hne, ih (List.nodup_cons.mp hnd).2 hmem]

theorem sum_map_add_distrib (l : List String) (f g : String → ℚ) :
    (l.map (fun x => f x + g x)).sum = (l.map f).sum + (l.map g).sum := by
  induction l with
  | nil => simp
  | cons x xs ih =>
    simp only [List.map_cons, List.sum_cons, ih]
    ring

theorem sum_over_groups (ks : List String) (rs : List FlatInvestment)
    (key : FlatInvestment → String) (hnd : ks.Nodup)
    (hcov : ∀ r ∈ rs, key r ∈ ks) :
    (ks.map (fun k =>
      ((rs.filter (fun r => key r == k)).map (fun r => r.amount)).sum)).sum =
      (rs.map (fun r => r.amount)).sum := by
  induction rs with
  | nil => simp
  | cons r rs ih =>
    have hcr : key r ∈ ks := hcov r (List.mem_cons_self r rs)
    have hcov2 : ∀ x ∈ rs, key x ∈ ks :=
      fun x hx => hcov x (List.mem_cons_of_mem r hx)
    have hsplit : ∀ k,
        ((List.filter (fun x => key x == k) (r :: rs)).map
          (fun x => x.amount)).sum =
        (if key r = k then r.amount else 0) +
          ((rs.filter (fun x => key x == k)).map (fun x => x.amount)).sum := by
      intro k
      by_cases hk : key r = k <;> simp [List.filter_cons, hk]
    simp only [hsplit]
    rw [sum_map_add_distrib, sum_ite_eq_of_nodup (key r) r.amount ks hnd hcr,
      ih hcov2]
    simp

theorem groupBreakdown_total (key : FlatInvestment → String)
    (rs : List FlatInvestment) :
    ((groupBreakdown key rs).map Prod.snd).sum =
      (rs.map (fun r => r.amount)).sum := by
  unfold groupBreakdown
  rw [List.map_map]
  exact sum_over_groups ((rs.map key).dedup) rs key (List.nodup_dedup _)
    (fun r hr => List.mem_dedup.mpr (List.mem_map_of_mem key hr))

theorem groupBreakdownFor_empty (tf : Option String)
    (periodRs displayRs : List FlatInvestment)
    (hemp : displayRs.isEmpty = true) :
    groupBreakdownFor tf periodRs displayRs = none := by
  unfold groupBreakdownFor
  rw [if_pos hemp]

theorem groupBreakdownFor_all (periodRs displayRs : List FlatInvestment) :
    groupBreakdownFor none periodRs displayRs =
      if displayRs.isEmpty then none
      else some (groupBreakdown (fun r => r.type) displayRs) := rfl

theorem groupBreakdownFor_sip (periodRs displayRs : List FlatInvestment) :
    groupBreakdownFor (some "SIP") periodRs displayRs =
      if displayRs.isEmpty then none
      else if hasColumn periodRs "detail_fund_name" then
        some (groupBreakdown (fun r => detailGet r "detail_fund_name") displayRs)
      else none := rfl

theorem breakdown_col_case (col : String)
    (periodRs displayRs : List FlatInvestment)
    (hnemp : ¬displayRs.isEmpty = true) :
    (∀ bd, (if displayRs.isEmpty then none
        else if hasColumn periodRs col then
          some (groupBreakdown (fun r => detailGet r col) displayRs)
        else none) = some bd →
      bd = groupBreakdown (fun r => detailGet r col) displayRs ∧
      (bd.map Prod.fst).Nodup ∧
      (∀ p ∈ bd, p.2 = ((displayRs.filter
        (fun r => detailGet r col == p.1)).map (fun r => r.amount)).sum) ∧
      (∀ k ∈ displayRs.map (fun r => detailGet r col),
        k ∈ bd.map Prod.fst)) ∧
    ((if displayRs.isEmpty then none
        else if hasColumn periodRs col then
          some (groupBreakdown (fun r => detailGet r col) displayRs)
        else none) = none ↔
      displayRs = [] ∨
        ∃ c, some col = some c ∧ hasColumn periodRs c = false) := by
  by_cases hcb : hasColumn periodRs col = true
  · constructor
    · intro bd hbd
      rw [if_neg hnemp, if_pos hcb] at hbd
      injection hbd with hbd2
      subst hbd2
      exact ⟨rfl, groupBreakdown_nodup_keys _ _,
        fun p hp => groupBreakdown_mem _ _ p hp,
        fun k hk => groupBreakdown_complete _ _ k hk⟩
    · rw [if_neg hnemp, if_pos hcb]
      constructor
      · intro hcontra
        cases hcontra
      · rintro (hnil | ⟨c, hc, hcf⟩)
        · exact absurd (by simp [hnil]) hnemp
        · injection hc with hc2
          subst hc2
          rw [hcb] at hcf
          cases hcf
  · constructor
    · intro bd hbd
      rw [if_neg hnemp, if_neg hcb] at hbd
      cases hbd
    · rw [if_neg hnemp, if_neg hcb]
      exact ⟨fun _ => Or.inr ⟨col, rfl, Bool.eq_false_iff.mpr hcb⟩,
        fun _ => rfl⟩

/-- C4 (amended): whenever the Investment Portfolio Breakdown chart
produces a grouped breakdown — which, for the five legitimate filter
selections, happens exactly when the display frame is nonempty and (for
the detail-grouping selections) the period frame carries the grouping
column — the breakdown groups by the key determined by the filter (All:
`type`; SIP: `detail_fund_name`; Hedge: `detail_asset_type`; Saving and
Emergency Fund: `detail_destination_account`), each key appearing once
with the sum of `amount` over the records holding that key, so two
records with the same key merge into one combined entry.  When the
display is empty or the grouping column is absent from the period frame,
no breakdown is produced (in the latter case groupby raises KeyError). -/
theorem grouped_breakdown_characterization (tf : Option String)
    (periodRs displayRs : List FlatInvestment)
    (h : tf ∈ ([none, some "SIP", some "Hedge", some "Saving",
      some "Emergency Fund"] : List (Option String))) :
    (∀ bd, groupBreakdownFor tf periodRs displayRs = some bd →
      bd = groupBreakdown (specKeyFor tf) displayRs ∧
      (bd.map Prod.fst).Nodup ∧
      (∀ p ∈ bd, p.2 = ((displayRs.filter
        (fun r => specKeyFor tf r == p.1)).map (fun r => r.amount)).sum) ∧
      (∀ k ∈ displayRs.map (specKeyFor tf), k ∈ bd.map Prod.fst)) ∧
    (groupBreakdownFor tf periodRs displayRs = none ↔
      displayRs = [] ∨
        ∃ c, detailColFor tf = some c ∧ hasColumn periodRs c = false) := by
  simp only [List.mem_cons, List.not_mem_nil, or_false] at h
  by_cases hemp : displayRs.isEmpty = true
  · have hnil : displayRs = [] := List.isEmpty_iff.mp hemp
    constructor
    · intro bd hbd
      rw [groupBreakdownFor_empty tf periodRs displayRs hemp] at hbd
      cases hbd
    · rw [groupBreakdownFor_empty tf periodRs displayRs hemp]
      exact ⟨fun _ => Or.inl hnil, fun _ => rfl⟩
  · rcases h with rfl | rfl | rfl | rfl | rfl
    · constructor
      · intro bd hbd
        rw [groupBreakdownFor_all, if_neg hemp] at hbd
        injection hbd with hbd2
        subst hbd2
        exact ⟨rfl, groupBreakdown_nodup_keys _ _,
          fun p hp => groupBreakdown_mem _ _ p hp,
          fun k hk => groupBreakdown_complete _ _ k hk⟩
      · rw [groupBreakdownFor_all, if_neg hemp]
        constructor
        · intro hc
          cases hc
        · rintro (hnil | ⟨c, hcec, hcf⟩)
          · exact absurd (by simp [hnil]) hemp
          · cases hcec
    · exact breakdown_col_case "detail_fund_name" periodRs displayRs hemp
    · exact breakdown_col_case "detail_asset_type" periodRs displayRs hemp
    · exact breakdown_col_case "detail_destination_account" periodRs displayRs hemp
    · exact breakdown_col_case "detail_destination_account" periodRs displayRs hemp

/-- C4 counterexample: the original claim asserts a grouped breakdown for
every list of type-filtered flattened investments, but for a Hedge record
whose payload lacks `detail_asset_type` (constructible, since `details`
is unvalidated) the period frame has no such column, `fillna('')` cannot
create one, and the groupby at app.py:272 raises KeyError: no breakdown
is produced at all. -/
theorem grouped_breakdown_undefined_cex :
    groupBreakdownFor (some "Hedge")
      [⟨"t1", "Hedge", 5, []⟩] [⟨"t1", "Hedge", 5, []⟩] = none := rfl

theorem grouped_breakdown_characterization_witness :
    (groupBreakdown (specKeyFor (some "SIP"))
        [⟨"t1", "SIP", 5, [("detail_fund_name", some "F")]⟩,
         ⟨"t2", "SIP", 7, [("detail_fund_name", some "F")]⟩] =
      groupBreakdown (specKeyFor (some "SIP"))
        [⟨"t1", "SIP", 5, [("detail_fund_name", some "F")]⟩,
         ⟨"t2", "SIP", 7, [("detail_fund_name", some "F")]⟩] ∧
      ((groupBreakdown (specKeyFor (some "SIP"))
        [⟨"t1", "SIP", 5, [("detail_fund_name", some "F")]⟩,
         ⟨"t2", "SIP", 7, [("detail_fund_name", some "F")]⟩]).map
        Prod.fst).Nodup ∧
      (∀ p ∈ groupBreakdown (specKeyFor (some "SIP"))
        [⟨"t1", "SIP", 5, [("detail_fund_name", some "F")]⟩,
         ⟨"t2", "SIP", 7, [("detail_fund_name", some "F")]⟩],
        p.2 = (([(⟨"t1", "SIP", 5,
            [("detail_fund_name", some "F")]⟩ : FlatInvestment),
          ⟨"t2", "SIP", 7, [("detail_fund_name", some "F")]⟩].filter
            (fun r => specKeyFor (some "SIP") r == p.1)).map
          (fun r => r.amount)).sum) ∧
      (∀ k ∈ [(⟨"t1", "SIP", 5,
            [("detail_fund_name", some "F")]⟩ : FlatInvestment),
          ⟨"t2", "SIP", 7, [("detail_fund_name", some "F")]⟩].map
            (specKeyFor (some "SIP")),
        k ∈ (groupBreakdown (specKeyFor (some "SIP"))
          [⟨"t1", "SIP", 5, [("detail_fund_name", some "F")]⟩,
           ⟨"t2", "SIP", 7, [("detail_fund_name", some "F")]⟩]).map
          Prod.fst)) ∧
    groupBreakdownFor (some "Hedge")
      [⟨"t3", "Hedge", 2, []⟩] [⟨"t3", "Hedge", 2, []⟩] = none :=
  ⟨(grouped_breakdown_characterization (some "SIP")
      [⟨"t1", "SIP", 5, [("detail_fund_name", some "F")]⟩,
       ⟨"t2", "SIP", 7, [("detail_fund_name", some "F")]⟩]
      [⟨"t1", "SIP", 5, [("detail_fund_name", some "F")]⟩,
       ⟨"t2", "SIP", 7, [("detail_fund_name", some "F")]⟩] (by decide)).1
    (groupBreakdown (specKeyFor (some "SIP"))
      [⟨"t1", "SIP", 5, [("detail_fund_name", some "F")]⟩,
       ⟨"t2", "SIP", 7, [("detail_fund_name", some "F")]⟩]) rfl,
   (grouped_breakdown_characterization (some "Hedge")
      [⟨"t3", "Hedge", 2, []⟩] [⟨"t3", "Hedge", 2, []⟩] (by decide)).2.mpr
    (Or.inr ⟨"detail_asset_type", rfl, rfl⟩)⟩

/-- C9 counterexample: a SIP record lacking `detail_fund_name` entirely,
alone in the period, refutes "groups under a defined empty-string bucket
and never fails": the period frame then has no `detail_fund_name` column —
`fillna('')` at app.py:206 only fills existing columns — so the groupby
at app.py:268 raises KeyError, and no breakdown (hence no empty-string
bucket) is produced. -/
theorem missing_detail_key_error_cex :
    (⟨"t1", "SIP", 5, []⟩ : FlatInvestment).details.lookup
      "detail_fund_name" = none ∧
    groupBreakdownFor (some "SIP")
      [⟨"t1", "SIP", 5, []⟩] [⟨"t1", "SIP", 5, []⟩] = none :=
  ⟨rfl, rfl⟩

/-- C9 (amended): a flattened record lacking the grouping detail key
groups under the defined empty-string bucket provided the grouping column
exists in the period frame — that is, at least one period record carries
the key, possibly with a null value; the breakdown is then defined and
accounts for every displayed record, its group totals summing to the
total of all amounts.  When no period record carries the key at all, the
column is absent and the groupby raises KeyError instead of bucketing
(see the counterexample). -/
theorem missing_detail_groups_to_empty
    (periodRs displayRs : List FlatInvestment) (r : FlatInvestment)
    (hr : r ∈ displayRs)
    (hnone : r.details.lookup "detail_fund_name" = none)
    (hcol : hasColumn periodRs "detail_fund_name" = true) :
    groupBreakdownFor (some "SIP") periodRs displayRs =
      some (groupBreakdown (fun x => detailGet x "detail_fund_name")
        displayRs) ∧
    r ∈ displayRs.filter (fun x => detailGet x "detail_fund_name" == "") ∧
    ("", ((displayRs.filter
        (fun x => detailGet x "detail_fund_name" == "")).map
        (fun x => x.amount)).sum) ∈
      groupBreakdown (fun x => detailGet x "detail_fund_name") displayRs ∧
    ((groupBreakdown (fun x => detailGet x "detail_fund_name")
        displayRs).map Prod.snd).sum =
      (displayRs.map (fun x => x.amount)).sum := by
  have hkey : detailGet r "detail_fund_name" = "" := by
    unfold detailGet
    rw [hnone]
  have hemp : displayRs.isEmpty = false := by
    cases displayRs with
    | nil => cases hr
    | cons x xs => rfl
  refine ⟨?_, ?_, ?_, groupBreakdown_total _ _⟩
  · rw [groupBreakdownFor_sip, hemp]
    simp [hcol]
  · refine List.mem_filter.mpr ⟨hr, ?_⟩
    simp [hkey]
  · have hk : "" ∈ displayRs.map (fun x => detailGet x "detail_fund_name") := by
      rw [← hkey]
      exact List.mem_map_of_mem _ hr
    unfold groupBreakdown
    exact List.mem_map_of_mem _ (List.mem_dedup.mpr hk)

theorem missing_detail_groups_to_empty_witness :
    groupBreakdownFor (some "SIP")
        [⟨"t0", "SIP", 3, [("detail_fund_name", none)]⟩,
         ⟨"t1", "SIP", 5, []⟩]
        [⟨"t0", "SIP", 3, [("detail_fund_name", none)]⟩,
         ⟨"t1", "SIP", 5, []⟩] =
      some (groupBreakdown (fun x => detailGet x "detail_fund_name")
        [⟨"t0", "SIP", 3, [("detail_fund_name", none)]⟩,
         ⟨"t1", "SIP", 5, []⟩]) ∧
    (⟨"t1", "SIP", 5, []⟩ : FlatInvestment) ∈
      [(⟨"t0", "SIP", 3, [("detail_fund_name", none)]⟩ : FlatInvestment),
       ⟨"t1", "SIP", 5, []⟩].filter
        (fun x => detailGet x "detail_fund_name" == "") ∧
    ("", (([(⟨"t0", "SIP", 3,
          [("detail_fund_name", none)]⟩ : FlatInvestment),
        ⟨"t1", "SIP", 5, []⟩].filter
          (fun x => detailGet x "detail_fund_name" == "")).map
        (fun x => x.amount)).sum) ∈
      groupBreakdown (fun x => detailGet x "detail_fund_name")
        [⟨"t0", "SIP", 3, [("detail_fund_name", none)]⟩,
         ⟨"t1", "SIP", 5, []⟩] ∧
    ((groupBreakdown (fun x => detailGet x "detail_fund_name")
        [⟨"t0", "SIP", 3, [("detail_fund_name", none)]⟩,
         ⟨"t1", "SIP", 5, []⟩]).map Prod.snd).sum =
      ([(⟨"t0", "SIP", 3, [("detail_fund_name", none)]⟩ : FlatInvestment),
        ⟨"t1", "SIP", 5, []⟩].map (fun x => x.amount)).sum :=
  missing_detail_groups_to_empty
    [⟨"t0", "SIP", 3, [("detail_fund_name", none)]⟩, ⟨"t1", "SIP", 5, []⟩]
    [⟨"t0", "SIP", 3, [("detail_fund_name", none)]⟩, ⟨"t1", "SIP", 5, []⟩]
    ⟨"t1", "SIP", 5, []⟩
    (List.mem_cons_of_mem _ (List.mem_singleton.mpr rfl)) rfl rfl

theorem periodFilter_characterization_witness :
    List.Sublist
      (periodFilter (some 2024) (some 1)
        [⟨"j", ⟨2024, 1⟩, ⟨"salary", 10⟩, ⟨10, 0, []⟩⟩,
         ⟨"f", ⟨2024, 2⟩, ⟨"salary", 10⟩, ⟨10, 0, []⟩⟩])
      [⟨"j", ⟨2024, 1⟩, ⟨"salary", 10⟩, ⟨10, 0, []⟩⟩,
       ⟨"f", ⟨2024, 2⟩, ⟨"salary", 10⟩, ⟨10, 0, []⟩⟩] ∧
    ∀ t, t ∈ periodFilter (some 2024) (some 1)
        [⟨"j", ⟨2024, 1⟩, ⟨"salary", 10⟩, ⟨10, 0, []⟩⟩,
         ⟨"f", ⟨2024, 2⟩, ⟨"salary", 10⟩, ⟨10, 0, []⟩⟩] ↔
      t ∈ [⟨"j", ⟨2024, 1⟩, ⟨"salary", 10⟩, ⟨10, 0, []⟩⟩,
           ⟨"f", ⟨2024, 2⟩, ⟨"salary", 10⟩, ⟨10, 0, []⟩⟩] ∧
        (∀ y, (some 2024 : Option Int) = some y → t.timestamp.year = y) ∧
        (∀ m, (some 1 : Option Nat) = some m → t.timestamp.month = m) :=
  periodFilter_characterization (some 2024) (some 1)
    [⟨"j", ⟨2024, 1⟩, ⟨"salary", 10⟩, ⟨10, 0, []⟩⟩,
     ⟨"f", ⟨2024, 2⟩, ⟨"salary", 10⟩, ⟨10, 0, []⟩⟩]
